import Mathlib

/-!
Shallow embedding of the bivariate copula families of the Copulas repository
(files `copulas/bivariate/clayton.py`, `copulas/bivariate/gumbel.py`,
`copulas/bivariate/independence.py`) and proofs about them.

Modelling conventions:
* a sample matrix of shape (n, 2) is a `List (ℝ × ℝ)`;
* numpy float arithmetic is modelled over `ℝ`, with `np.power` as `Real.rpow`
  (which agrees with numpy on nonnegative bases and on integer exponents);
* along the Gumbel CDF chain, where the code relies on IEEE infinities
  (`np.log 0 = -inf`, `np.exp (-inf) = 0`), the intermediate quantity
  `-np.log u` is modelled in `ENNReal` so that the value at `u = 0` is `⊤`;
* a Python function that can raise returns `Except CopulaError _`; an
  operation that never raises always returns `Except.ok`.
-/

namespace Copulas

/-- Errors surfaced by the bivariate copula API. -/
inductive CopulaError where
  | unfittedModel
  | parameterDomain
  | shape
deriving DecidableEq

/-- State of a bivariate copula instance: the dependence parameter `theta`,
Kendall's tau `tau`, and the `fitted` flag. -/
structure Bivariate where
  theta : ℝ
  tau : ℝ
  fitted : Bool

/-- Modelled from the spec: `check_fit` lives in `copulas/bivariate/base.py`,
which is not among the given source files. Per the spec it is an internal
guard that fails with an `UnfittedModelError` if `fitted` is false. -/
def Bivariate.check_fit (c : Bivariate) : Except CopulaError Unit :=
  if c.fitted = true then Except.ok () else Except.error CopulaError.unfittedModel

/-- Modelled from the spec: `split_matrix` lives in `copulas/bivariate/base.py`,
which is not among the given source files. Per the spec it splits the (n, 2)
matrix into the two length-n columns U and V. -/
def split_matrix (X : List (ℝ × ℝ)) : List ℝ × List ℝ :=
  (X.map Prod.fst, X.map Prod.snd)

/-- Embedding of `Clayton.generator`: guard, then
`(1.0 / theta) * (np.power(t, -theta) - 1)` elementwise. -/
noncomputable def Clayton.generator (c : Bivariate) (t : List ℝ) :
    Except CopulaError (List ℝ) := do
  _ ← c.check_fit
  pure (t.map fun x => (1 / c.theta) * (x ^ (-c.theta) - 1))

/-- Embedding of `Clayton.probability_density`: guard, split, then
`(theta+1)(uv)^(-(theta+1)) * (u^-theta + v^-theta - 1)^(-(2 theta+1)/theta)`
elementwise. -/
noncomputable def Clayton.probability_density (c : Bivariate) (X : List (ℝ × ℝ)) :
    Except CopulaError (List ℝ) := do
  _ ← c.check_fit
  let UV := split_matrix X
  pure (List.zipWith
    (fun u v =>
      ((c.theta + 1) * (u * v) ^ (-(c.theta + 1))) *
        (u ^ (-c.theta) + v ^ (-c.theta) - 1) ^ (-(2 * c.theta + 1) / c.theta))
    UV.1 UV.2)

open Classical in
/-- Embedding of `Clayton.cumulative_distribution`: guard, split; if all of V
or all of U is zero return the zero vector; otherwise evaluate elementwise,
mapping a pair with u = 0 or v = 0 to 0 and any other pair through the power
formula, and finally clamp each entry of the result with `max · 0`. -/
noncomputable def Clayton.cumulative_distribution (c : Bivariate) (X : List (ℝ × ℝ)) :
    Except CopulaError (List ℝ) := do
  _ ← c.check_fit
  let UV := split_matrix X
  if (∀ v ∈ UV.2, v = 0) ∨ (∀ u ∈ UV.1, u = 0) then
    pure (List.replicate UV.2.length 0)
  else
    pure ((List.zipWith
      (fun u v =>
        if 0 < u ∧ 0 < v then
          (u ^ (-c.theta) + v ^ (-c.theta) - 1) ^ (-1 / c.theta)
        else 0)
      UV.1 UV.2).map fun x => max x 0)

open Classical in
/-- Embedding of `Clayton.percent_point`: guard; if theta < 0 return V
unchanged, else `u = ((a + b - 1)/b)^(-1/theta)` with `a = y^(theta/(-1-theta))`
and `b = v^theta`, elementwise. -/
noncomputable def Clayton.percent_point (c : Bivariate) (y V : List ℝ) :
    Except CopulaError (List ℝ) := do
  _ ← c.check_fit
  if c.theta < 0 then
    pure V
  else
    pure (List.zipWith
      (fun yi vi =>
        ((yi ^ (c.theta / (-1 - c.theta)) + vi ^ c.theta - 1) / vi ^ c.theta) ^
          (-1 / c.theta))
      y V)

open Classical in
/-- Embedding of `Clayton.partial_derivative`: guard, split; if theta = 0
return V, else `A * h - y` with `A = v^(-theta-1)`,
`B = v^-theta + u^-theta - 1`, `h = B^((-1-theta)/theta)`, elementwise. -/
noncomputable def Clayton.partial_derivative (c : Bivariate) (X : List (ℝ × ℝ)) (y : ℝ) :
    Except CopulaError (List ℝ) := do
  _ ← c.check_fit
  let UV := split_matrix X
  if c.theta = 0 then
    pure UV.2
  else
    pure (List.zipWith
      (fun u v =>
        v ^ (-c.theta - 1) *
          (v ^ (-c.theta) + u ^ (-c.theta) - 1) ^ ((-1 - c.theta) / c.theta) - y)
      UV.1 UV.2)

open Classical in
/-- Embedding of `Clayton.compute_theta`: 10000 when tau = 1, else
`2 tau / (1 - tau)`. -/
noncomputable def Clayton.compute_theta (c : Bivariate) : ℝ :=
  if c.tau = 1 then 10000 else 2 * c.tau / (1 - c.tau)

open Classical in
/-- Model of the IEEE value `-np.log u` for `u ∈ [0, 1]`, valued in `[0, ∞]`:
`np.log 0 = -inf`, so the negated logarithm at 0 is `⊤`. -/
noncomputable def nlog (u : ℝ) : ENNReal :=
  if u = 0 then ⊤ else ENNReal.ofReal (-Real.log u)

open Classical in
/-- Model of the IEEE value `np.exp (-x)` for `x ∈ [0, ∞]`:
`np.exp (-inf) = 0`. -/
noncomputable def expNeg (x : ENNReal) : ℝ :=
  if x = ⊤ then 0 else Real.exp (-x.toReal)

/-- Embedding of `Gumbel.generator`: `np.power(-np.log t, theta)` elementwise.
The source of this operation calls no guard, so it never raises. -/
noncomputable def Gumbel.generator (c : Bivariate) (t : List ℝ) :
    Except CopulaError (List ℝ) :=
  Except.ok (t.map fun x => (-Real.log x) ^ c.theta)

open Classical in
/-- Embedding of `Gumbel.cumulative_distribution`: guard, split; at theta = 1
the product `u * v` elementwise, otherwise
`exp(-((-ln u)^theta + (-ln v)^theta)^(1/theta))` elementwise, with the
negated logarithms modelled in `[0, ∞]` (`nlog`, `expNeg`). -/
noncomputable def Gumbel.cumulative_distribution (c : Bivariate) (X : List (ℝ × ℝ)) :
    Except CopulaError (List ℝ) := do
  _ ← c.check_fit
  let UV := split_matrix X
  if c.theta = 1 then
    pure (List.zipWith (fun u v => u * v) UV.1 UV.2)
  else
    pure (List.zipWith
      (fun u v => expNeg ((nlog u ^ c.theta + nlog v ^ c.theta) ^ (1 / c.theta)))
      UV.1 UV.2)

open Classical in
/-- Embedding of `Gumbel.probability_density`: guard, split; at theta = 1 the
product `u * v` elementwise, otherwise the CDF value times the four factors
`a`, `b`, `c`, `d` of the source, elementwise. -/
noncomputable def Gumbel.probability_density (c : Bivariate) (X : List (ℝ × ℝ)) :
    Except CopulaError (List ℝ) := do
  _ ← c.check_fit
  let UV := split_matrix X
  if c.theta = 1 then
    pure (List.zipWith (fun u v => u * v) UV.1 UV.2)
  else do
    let cd ← Gumbel.cumulative_distribution c X
    pure (List.zipWith
      (fun cdf p =>
        let tmp := (-Real.log p.1) ^ c.theta + (-Real.log p.2) ^ c.theta
        cdf * (p.1 * p.2) ^ (-1 : ℝ) * tmp ^ (-2 + 2 / c.theta) *
          (Real.log p.1 * Real.log p.2) ^ (c.theta - 1) *
          (1 + (c.theta - 1) * tmp ^ (-1 / c.theta)))
      cd X)

open Classical in
/-- Embedding of `Gumbel.percent_point`: guard; at theta = 1 return y without
any search, otherwise run the bounded numerical search once per pair.
Modelled from the spec: the bounded 1-D search
(`scipy.optimize.fminbound` over `partial_derivative_scalar`, an external
routine and a `base.py` helper, neither among the given source files) is
abstracted as the parameter `solver`, applied to each pair `(y_i, v_i)`. -/
noncomputable def Gumbel.percent_point (c : Bivariate) (solver : ℝ → ℝ → ℝ)
    (y V : List ℝ) : Except CopulaError (List ℝ) := do
  _ ← c.check_fit
  if c.theta = 1 then
    pure y
  else
    pure (List.zipWith (fun yi vi => solver yi vi) y V)

open Classical in
/-- Embedding of `Gumbel.partial_derivative`: guard, split; at theta = 1
return V (the offset y is not subtracted in this branch), otherwise
`p1 * p2 * p3 / v - y` elementwise with `p1` the CDF vector of X. -/
noncomputable def Gumbel.partial_derivative (c : Bivariate) (X : List (ℝ × ℝ)) (y : ℝ) :
    Except CopulaError (List ℝ) := do
  _ ← c.check_fit
  let UV := split_matrix X
  if c.theta = 1 then
    pure UV.2
  else do
    let p1 ← Gumbel.cumulative_distribution c X
    pure (List.zipWith
      (fun cdf p =>
        let t1 := (-Real.log p.1) ^ c.theta
        let t2 := (-Real.log p.2) ^ c.theta
        cdf * (t1 + t2) ^ (-1 + 1 / c.theta) * (-Real.log p.2) ^ (c.theta - 1) / p.2 - y)
      p1 X)

/-- Embedding of `Gumbel.compute_theta`: `1 / (1 - tau)`, with no special case
at tau = 1. -/
noncomputable def Gumbel.compute_theta (c : Bivariate) : ℝ :=
  1 / (1 - c.tau)

/-- Embedding of `Independence.fit`: the body is `pass`, so every input is
accepted and the state is returned unchanged. -/
def Independence.fit (c : Bivariate) (X : List (ℝ × ℝ)) :
    Except CopulaError Bivariate :=
  Except.ok c

/-- Embedding of `Independence.generator`: `np.log t` elementwise, with no
guard. -/
noncomputable def Independence.generator (c : Bivariate) (t : List ℝ) :
    Except CopulaError (List ℝ) :=
  Except.ok (t.map Real.log)

/-- Embedding of `Independence.probability_density`: the standard bivariate
normal density (identity covariance) at each row, with no guard. -/
noncomputable def Independence.probability_density (c : Bivariate) (X : List (ℝ × ℝ)) :
    Except CopulaError (List ℝ) :=
  Except.ok (X.map fun p => Real.exp (-(p.1 ^ 2 + p.2 ^ 2) / 2) / (2 * Real.pi))

/-- Embedding of `Independence.cumulative_distribution`: split, then the
product `u * v` elementwise, with no guard. -/
def Independence.cumulative_distribution (c : Bivariate) (X : List (ℝ × ℝ)) :
    Except CopulaError (List ℝ) :=
  Except.ok (List.zipWith (fun u v => u * v) (split_matrix X).1 (split_matrix X).2)

/-- Embedding of `Independence.partial_derivative`: returns the input matrix X
unchanged (the source takes no offset argument), with no guard. -/
def Independence.partial_derivative (c : Bivariate) (X : List (ℝ × ℝ)) :
    Except CopulaError (List (ℝ × ℝ)) :=
  Except.ok X

/-- Embedding of `Independence.percent_point`: guard, then return V
unchanged. -/
def Independence.percent_point (c : Bivariate) (y V : List ℝ) :
    Except CopulaError (List ℝ) := do
  _ ← c.check_fit
  pure V

theorem error_bind {α β : Type} (e : CopulaError) (f : α → Except CopulaError β) :
    (Except.error e >>= f) = Except.error e := rfl

theorem ok_bind {α β : Type} (a : α) (f : α → Except CopulaError β) :
    (Except.ok a >>= f) = f a := rfl

theorem nlog_one : nlog 1 = 0 := by
  simp [nlog, Real.log_one]

theorem nlog_zero : nlog 0 = ⊤ := by
  simp [nlog]

theorem expNeg_zero : expNeg 0 = 1 := by
  simp [expNeg, Real.exp_zero]

theorem expNeg_top : expNeg ⊤ = 0 := by
  simp [expNeg]

theorem zipWith_split (f : ℝ → ℝ → ℝ) (X : List (ℝ × ℝ)) :
    List.zipWith f (X.map Prod.fst) (X.map Prod.snd) = X.map fun p => f p.1 p.2 := by
  induction X with
  | nil => rfl
  | cons p t ih => simp [ih]

open Classical in
theorem clayton_cdf_eq (c : Bivariate) (hf : c.fitted = true) (X : List (ℝ × ℝ)) :
    Clayton.cumulative_distribution c X =
      if (∀ p ∈ X, p.2 = 0) ∨ (∀ p ∈ X, p.1 = 0) then
        Except.ok (List.replicate X.length 0)
      else
        Except.ok (X.map fun p =>
          max (if 0 < p.1 ∧ 0 < p.2 then
              (p.1 ^ (-c.theta) + p.2 ^ (-c.theta) - 1) ^ (-1 / c.theta)
            else 0) 0) := by
  by_cases hc : (∀ p ∈ X, p.2 = 0) ∨ (∀ p ∈ X, p.1 = 0)
  · have hc2 : (∀ v ∈ (split_matrix X).2, v = 0) ∨ (∀ u ∈ (split_matrix X).1, u = 0) := by
      rcases hc with h | h
      · refine Or.inl fun v hv => ?_
        rcases List.mem_map.mp hv with ⟨p, hp, rfl⟩
        exact h p hp
      · refine Or.inr fun u hu => ?_
        rcases List.mem_map.mp hu with ⟨p, hp, rfl⟩
        exact h p hp
    simp only [Clayton.cumulative_distribution, Bivariate.check_fit, hf, if_true,
      ok_bind, if_pos hc2, if_pos hc]
    simp [split_matrix]
    rfl
  · have hc2 : ¬ ((∀ v ∈ (split_matrix X).2, v = 0) ∨ (∀ u ∈ (split_matrix X).1, u = 0)) := by
      intro h2
      apply hc
      rcases h2 with h | h
      · exact Or.inl fun p hp => h p.2 (List.mem_map.mpr ⟨p, hp, rfl⟩)
      · exact Or.inr fun p hp => h p.1 (List.mem_map.mpr ⟨p, hp, rfl⟩)
    simp only [Clayton.cumulative_distribution, Bivariate.check_fit, hf, if_true,
      ok_bind, if_neg hc2, if_neg hc]
    simp only [split_matrix, zipWith_split, List.map_map]
    rfl

open Classical in
theorem gumbel_cdf_eq (c : Bivariate) (hf : c.fitted = true) (X : List (ℝ × ℝ)) :
    Gumbel.cumulative_distribution c X =
      if c.theta = 1 then Except.ok (X.map fun p => p.1 * p.2)
      else
        Except.ok (X.map fun p =>
          expNeg ((nlog p.1 ^ c.theta + nlog p.2 ^ c.theta) ^ (1 / c.theta))) := by
  by_cases hθ : c.theta = 1
  · simp only [Gumbel.cumulative_distribution, Bivariate.check_fit, hf, if_true,
      ok_bind, if_pos hθ]
    simp [split_matrix, zipWith_split]
    rfl
  · simp only [Gumbel.cumulative_distribution, Bivariate.check_fit, hf, if_true,
      ok_bind, if_neg hθ]
    simp [split_matrix, zipWith_split]
    rfl

/-- C1 (counterexample): `Gumbel.generator` evaluates its formula on an
unfitted instance and returns a value instead of raising
`UnfittedModelError`: no guard is run. -/
theorem gumbel_generator_skips_guard :
    Gumbel.generator ⟨2, 0, false⟩ [1] = Except.ok [0] ∧
      Gumbel.generator ⟨2, 0, false⟩ [1] ≠ Except.error CopulaError.unfittedModel := by
  constructor
  · simp [Gumbel.generator, Real.log_one, Real.zero_rpow two_ne_zero]
  · simp [Gumbel.generator]

/-- C1 (amended): every operation whose source calls `check_fit` — all five
Clayton evaluators, Gumbel's density, CDF, percent point and partial
derivative, and Independence's percent point — fails with
`UnfittedModelError` on an unfitted instance before evaluating any formula;
the remaining operations (Gumbel's generator and Independence's generator,
density, CDF and partial derivative) run no guard and always return a
value. -/
theorem guarded_evaluators_require_fit (c : Bivariate) (h : c.fitted = false)
    (X : List (ℝ × ℝ)) (t y V : List ℝ) (yo : ℝ) (solver : ℝ → ℝ → ℝ) :
    Clayton.generator c t = Except.error CopulaError.unfittedModel ∧
    Clayton.probability_density c X = Except.error CopulaError.unfittedModel ∧
    Clayton.cumulative_distribution c X = Except.error CopulaError.unfittedModel ∧
    Clayton.percent_point c y V = Except.error CopulaError.unfittedModel ∧
    Clayton.partial_derivative c X yo = Except.error CopulaError.unfittedModel ∧
    Gumbel.probability_density c X = Except.error CopulaError.unfittedModel ∧
    Gumbel.cumulative_distribution c X = Except.error CopulaError.unfittedModel ∧
    Gumbel.percent_point c solver y V = Except.error CopulaError.unfittedModel ∧
    Gumbel.partial_derivative c X yo = Except.error CopulaError.unfittedModel ∧
    Independence.percent_point c y V = Except.error CopulaError.unfittedModel ∧
    (∃ r, Gumbel.generator c t = Except.ok r) ∧
    (∃ r, Independence.generator c t = Except.ok r) ∧
    (∃ r, Independence.probability_density c X = Except.ok r) ∧
    (∃ r, Independence.cumulative_distribution c X = Except.ok r) ∧
    (∃ r, Independence.partial_derivative c X = Except.ok r) := by
  refine ⟨?_, ?_, ?_, ?_, ?_, ?_, ?_, ?_, ?_, ?_, ⟨_, rfl⟩, ⟨_, rfl⟩, ⟨_, rfl⟩,
    ⟨_, rfl⟩, ⟨_, rfl⟩⟩ <;>
    simp [Clayton.generator, Clayton.probability_density,
      Clayton.cumulative_distribution, Clayton.percent_point,
      Clayton.partial_derivative, Gumbel.probability_density,
      Gumbel.cumulative_distribution, Gumbel.percent_point,
      Gumbel.partial_derivative, Independence.percent_point,
      Bivariate.check_fit, h, error_bind]

/-- C1 (witness): the amended guard claim instantiated on a concrete unfitted
Clayton/Gumbel/Independence state. -/
theorem guarded_evaluators_require_fit_witness :
    (Bivariate.mk 2 0 false).fitted = false ∧
      Clayton.generator ⟨2, 0, false⟩ [1] = Except.error CopulaError.unfittedModel :=
  ⟨rfl,
    (guarded_evaluators_require_fit ⟨2, 0, false⟩ rfl [] [1] [] [] 0 (fun _ _ => 0)).1⟩

/-- C6: `Clayton.compute_theta` returns exactly 10000 when tau = 1, and
`2 tau / (1 - tau)` for every tau < 1; the value at tau = 1 is the finite
real sentinel 10000. -/
theorem clayton_compute_theta_spec :
    (∀ c : Bivariate, c.tau = 1 → Clayton.compute_theta c = 10000) ∧
    (∀ c : Bivariate, c.tau < 1 → Clayton.compute_theta c = 2 * c.tau / (1 - c.tau)) := by
  constructor
  · intro c h
    simp [Clayton.compute_theta, h]
  · intro c h
    simp [Clayton.compute_theta, ne_of_lt h]

/-- C6 (witness): the theta-from-tau rule evaluated at tau = 1 and at
tau = 0. -/
theorem clayton_compute_theta_spec_witness :
    Clayton.compute_theta ⟨0, 1, true⟩ = 10000 ∧
      Clayton.compute_theta ⟨0, 0, true⟩ = 2 * 0 / (1 - 0) :=
  ⟨clayton_compute_theta_spec.1 ⟨0, 1, true⟩ rfl,
    clayton_compute_theta_spec.2 ⟨0, 0, true⟩ (by norm_num)⟩

/-- C10: `Gumbel.compute_theta` is the bare division `1 / (1 - tau)` with no
special case: the divisor is nonzero for every tau different from 1, and at
tau = 1 no finite-sentinel branch analogous to Clayton's 10000 exists — the
same division formula applies there too. -/
theorem gumbel_compute_theta_spec :
    (∀ c : Bivariate, Gumbel.compute_theta c = 1 / (1 - c.tau)) ∧
    (∀ c : Bivariate, c.tau ≠ 1 → 1 - c.tau ≠ 0) ∧
    (∀ c : Bivariate, c.tau = 1 → Gumbel.compute_theta c ≠ Clayton.compute_theta c) := by
  refine ⟨fun c => rfl, fun c h => sub_ne_zero_of_ne (Ne.symm h), fun c h => ?_⟩
  simp [Gumbel.compute_theta, Clayton.compute_theta, h]

/-- C10 (witness): the division rule evaluated at tau = 0 and the missing
sentinel exhibited at tau = 1. -/
theorem gumbel_compute_theta_spec_witness :
    Gumbel.compute_theta ⟨0, 0, true⟩ = 1 / (1 - 0) ∧
      (1 - (0 : ℝ) ≠ 0) ∧
      Gumbel.compute_theta ⟨0, 1, true⟩ ≠ Clayton.compute_theta ⟨0, 1, true⟩ :=
  ⟨gumbel_compute_theta_spec.1 ⟨0, 0, true⟩,
    gumbel_compute_theta_spec.2.1 ⟨0, 0, true⟩ (by norm_num),
    gumbel_compute_theta_spec.2.2 ⟨0, 1, true⟩ rfl⟩

/-- C2 (counterexample): with fitted theta = -1/2 (inside the claimed domain
[-1, ∞) minus 0) and the pair (1/16, 1/16), the code returns
`max((-1/2)^2, 0) = 1/4`: the power is applied to the negative base -1/2 and
the clamp comes after. The claimed order — clamping the negative base to 0
before applying the exponent -1/theta = 2 — yields 0 instead. -/
theorem clayton_cdf_clamp_counterexample :
    Clayton.cumulative_distribution ⟨-(1 / 2), 0, true⟩ [(1 / 16, 1 / 16)] =
        Except.ok [1 / 4] ∧
      (max ((1 / 16 : ℝ) ^ (-(-(1 / 2) : ℝ)) + (1 / 16 : ℝ) ^ (-(-(1 / 2) : ℝ)) - 1) 0) ^
          (-1 / (-(1 / 2) : ℝ)) = 0 ∧
      (1 / 4 : ℝ) ≠ 0 := by
  have h16 : (1 / 16 : ℝ) ^ ((1 / 2) : ℝ) = 1 / 4 := by
    rw [show ((1 / 16 : ℝ)) = (1 / 4 : ℝ) ^ (2 : ℕ) by norm_num,
      show ((1 / 2 : ℝ)) = (((2 : ℕ) : ℝ))⁻¹ by push_cast; norm_num]
    exact Real.pow_rpow_inv_natCast (by norm_num) (by norm_num)
  have hneg : (-(1 / 2) : ℝ) ^ ((2 : ℝ)) = 1 / 4 := by
    rw [show ((2 : ℝ)) = (((2 : ℕ) : ℝ)) by push_cast; norm_num, Real.rpow_natCast]
    norm_num
  refine ⟨?_, ?_, by norm_num⟩
  · rw [clayton_cdf_eq ⟨-(1 / 2), 0, true⟩ rfl [(1 / 16, 1 / 16)]]
    rw [if_neg (by norm_num)]
    simp only [List.map_cons, List.map_nil]
    norm_num [h16, hneg]
  · have hmax : max ((1 / 16 : ℝ) ^ (-(-(1 / 2) : ℝ)) + (1 / 16 : ℝ) ^ (-(-(1 / 2) : ℝ)) - 1) 0
        = 0 := by
      rw [show (-(-(1 / 2) : ℝ)) = ((1 / 2) : ℝ) by norm_num, h16,
        show (1 / 4 : ℝ) + 1 / 4 - 1 = -(1 / 2) by norm_num]
      exact max_eq_right (by norm_num)
    rw [hmax]
    exact Real.zero_rpow (by norm_num)

/-- C2 (amended): for Clayton with fitted theta in [-1, ∞) minus 0, the CDF
returns the all-zero length-n vector when every value of V or every value of
U is exactly 0; otherwise, elementwise, 0 for any pair with u = 0 or v = 0
(the power formula is not consulted for such pairs), and for all other pairs
the power `(u^-theta + v^-theta - 1)^(-1/theta)` with the result clamped by
`max · 0` after the (possibly negative) exponent has been applied — the clamp
acts on the power's value, not on its base. -/
theorem clayton_cdf_spec (c : Bivariate) (hf : c.fitted = true)
    (hdom : -1 ≤ c.theta) (hne : c.theta ≠ 0) (X : List (ℝ × ℝ)) :
    ((∀ p ∈ X, p.2 = 0) ∨ (∀ p ∈ X, p.1 = 0) →
      Clayton.cumulative_distribution c X = Except.ok (List.replicate X.length 0)) ∧
    (¬ ((∀ p ∈ X, p.2 = 0) ∨ (∀ p ∈ X, p.1 = 0)) →
      Clayton.cumulative_distribution c X = Except.ok (X.map fun p =>
        if 0 < p.1 ∧ 0 < p.2 then
          max ((p.1 ^ (-c.theta) + p.2 ^ (-c.theta) - 1) ^ (-1 / c.theta)) 0
        else 0)) := by
  constructor
  · intro h
    rw [clayton_cdf_eq c hf X, if_pos h]
  · intro h
    rw [clayton_cdf_eq c hf X, if_neg h]
    congr 1
    apply List.map_congr_left
    intro p _
    by_cases hp : 0 < p.1 ∧ 0 < p.2
    · rw [if_pos hp, if_pos hp]
    · rw [if_neg hp, if_neg hp]
      exact max_self 0

/-- C2 (witness): the elementwise rule instantiated on a fitted Clayton state
with theta = 2 and the single pair (1/2, 1/2). -/
theorem clayton_cdf_spec_witness :
    (Bivariate.mk 2 0 true).fitted = true ∧ -1 ≤ (2 : ℝ) ∧ (2 : ℝ) ≠ 0 ∧
      Clayton.cumulative_distribution ⟨2, 0, true⟩ [(1 / 2, 1 / 2)] =
        Except.ok [max (((1 / 2 : ℝ) ^ (-(2 : ℝ)) + (1 / 2 : ℝ) ^ (-(2 : ℝ)) - 1) ^
          (-1 / (2 : ℝ))) 0] := by
  have h := (clayton_cdf_spec ⟨2, 0, true⟩ rfl (by norm_num) (by norm_num)
    [(1 / 2, 1 / 2)]).2 (by norm_num)
  refine ⟨rfl, by norm_num, by norm_num, ?_⟩
  rw [h]
  norm_num

/-- C3: for Gumbel with fitted theta = 1, the CDF is exactly the elementwise
product `u * v`, and the percent point returns y exactly, for every solver —
the numerical search is never consulted. -/
theorem gumbel_theta_one_cdf_ppf (c : Bivariate) (hf : c.fitted = true)
    (hθ : c.theta = 1) (X : List (ℝ × ℝ)) (y V : List ℝ) (solver : ℝ → ℝ → ℝ) :
    Gumbel.cumulative_distribution c X = Except.ok (X.map fun p => p.1 * p.2) ∧
      Gumbel.percent_point c solver y V = Except.ok y := by
  constructor
  · simp [Gumbel.cumulative_distribution, Bivariate.check_fit, hf, hθ, ok_bind,
      split_matrix, zipWith_split]
  · simp [Gumbel.percent_point, Bivariate.check_fit, hf, hθ, ok_bind]

/-- C3 (witness): the independence collapse evaluated on a concrete fitted
Gumbel state with theta = 1. -/
theorem gumbel_theta_one_cdf_ppf_witness :
    (Bivariate.mk 1 0 true).fitted = true ∧ (Bivariate.mk 1 0 true).theta = 1 ∧
      Gumbel.cumulative_distribution ⟨1, 0, true⟩ [(1 / 2, 1 / 3)] =
        Except.ok [(1 : ℝ) / 2 * (1 / 3)] ∧
      Gumbel.percent_point ⟨1, 0, true⟩ (fun _ _ => 0) [1 / 4] [1 / 2] =
        Except.ok [1 / 4] := by
  have h := gumbel_theta_one_cdf_ppf ⟨1, 0, true⟩ rfl rfl [(1 / 2, 1 / 3)]
    [1 / 4] [1 / 2] (fun _ _ => 0)
  exact ⟨rfl, rfl, h.1, h.2⟩

/-- C4 (counterexample): for Gumbel with fitted theta = 1 and offset
y = 1/2, the partial derivative of [(1/2, 1/3)] returns [1/3], which is not
the claimed elementwise V - y = [1/3 - 1/2]. -/
theorem gumbel_pd_theta_one_ignores_offset :
    Gumbel.partial_derivative ⟨1, 0, true⟩ [(1 / 2, 1 / 3)] (1 / 2) =
        Except.ok [1 / 3] ∧
      ([(1 : ℝ) / 3] : List ℝ) ≠ [1 / 3 - 1 / 2] := by
  constructor
  · simp [Gumbel.partial_derivative, Bivariate.check_fit, ok_bind, split_matrix]
  · norm_num

/-- C4 (amended): for Gumbel with fitted theta = 1, the partial derivative
returns the V column unchanged for every input matrix X and every offset y;
the offset is not subtracted in this branch. -/
theorem gumbel_pd_theta_one_returns_v (c : Bivariate) (hf : c.fitted = true)
    (hθ : c.theta = 1) (X : List (ℝ × ℝ)) (y : ℝ) :
    Gumbel.partial_derivative c X y = Except.ok (X.map Prod.snd) := by
  simp [Gumbel.partial_derivative, Bivariate.check_fit, hf, hθ, ok_bind, split_matrix]

/-- C4 (witness): the theta = 1 partial derivative evaluated at a concrete
state, matrix and nonzero offset. -/
theorem gumbel_pd_theta_one_returns_v_witness :
    (Bivariate.mk 1 0 true).fitted = true ∧ (Bivariate.mk 1 0 true).theta = 1 ∧
      Gumbel.partial_derivative ⟨1, 0, true⟩ [(1 / 2, 1 / 3)] (1 / 2) =
        Except.ok [1 / 3] :=
  ⟨rfl, rfl, gumbel_pd_theta_one_returns_v ⟨1, 0, true⟩ rfl rfl [(1 / 2, 1 / 3)] (1 / 2)⟩

/-- C7: for every fitted family (Clayton with theta in [-1, ∞) minus 0,
Gumbel with theta in [1, ∞), Independence), the CDF returns 1 on the pair
(1, 1) and 0 on any pair whose first or second component is 0. -/
theorem cdf_boundary_values (c : Bivariate) (hf : c.fitted = true) (u v : ℝ) :
    (-1 ≤ c.theta → c.theta ≠ 0 →
      Clayton.cumulative_distribution c [(1, 1)] = Except.ok [1] ∧
      Clayton.cumulative_distribution c [(u, 0)] = Except.ok [0] ∧
      Clayton.cumulative_distribution c [(0, v)] = Except.ok [0]) ∧
    (1 ≤ c.theta →
      Gumbel.cumulative_distribution c [(1, 1)] = Except.ok [1] ∧
      Gumbel.cumulative_distribution c [(u, 0)] = Except.ok [0] ∧
      Gumbel.cumulative_distribution c [(0, v)] = Except.ok [0]) ∧
    (Independence.cumulative_distribution c [(1, 1)] = Except.ok [1] ∧
      Independence.cumulative_distribution c [(u, 0)] = Except.ok [0] ∧
      Independence.cumulative_distribution c [(0, v)] = Except.ok [0]) := by
  refine ⟨fun _ _ => ⟨?_, ?_, ?_⟩, fun h1 => ?_, ?_, ?_, ?_⟩
  · have h2 : ((1 : ℝ) ^ (-c.theta) + 1 ^ (-c.theta) - 1) = 1 := by
      rw [Real.one_rpow]; ring
    simp [Clayton.cumulative_distribution, Bivariate.check_fit, hf, ok_bind,
      split_matrix, h2, Real.one_rpow]
  · simp [Clayton.cumulative_distribution, Bivariate.check_fit, hf, ok_bind,
      split_matrix]
  · simp [Clayton.cumulative_distribution, Bivariate.check_fit, hf, ok_bind,
      split_matrix]
  · rcases eq_or_lt_of_le h1 with hθ | hθ
    · refine ⟨?_, ?_, ?_⟩ <;>
        simp [Gumbel.cumulative_distribution, Bivariate.check_fit, hf, ← hθ,
          ok_bind, split_matrix]
    · have hpos : (0 : ℝ) < c.theta := lt_trans one_pos hθ
      have hne : c.theta ≠ 1 := (ne_of_lt hθ).symm
      have hz : (0 : ENNReal) ^ c.theta = 0 := ENNReal.zero_rpow_of_pos hpos
      have hzi : (0 : ENNReal) ^ (1 / c.theta) = 0 :=
        ENNReal.zero_rpow_of_pos (by positivity)
      have hzi2 : (0 : ENNReal) ^ c.theta⁻¹ = 0 :=
        ENNReal.zero_rpow_of_pos (by positivity)
      have ht : (⊤ : ENNReal) ^ c.theta = ⊤ := ENNReal.top_rpow_of_pos hpos
      have hti : (⊤ : ENNReal) ^ (1 / c.theta) = ⊤ :=
        ENNReal.top_rpow_of_pos (by positivity)
      have hti2 : (⊤ : ENNReal) ^ c.theta⁻¹ = ⊤ :=
        ENNReal.top_rpow_of_pos (by positivity)
      refine ⟨?_, ?_, ?_⟩ <;>
        simp [Gumbel.cumulative_distribution, Bivariate.check_fit, hf, hne,
          ok_bind, split_matrix, nlog_one, nlog_zero, hz, hzi, hzi2, ht, hti,
          hti2, expNeg_zero, expNeg_top]
  · simp [Independence.cumulative_distribution, split_matrix]
  · simp [Independence.cumulative_distribution, split_matrix]
  · simp [Independence.cumulative_distribution, split_matrix]

/-- C7 (witness): the boundary values evaluated on a concrete fitted state
with theta = 2, valid for both the Clayton and the Gumbel domain. -/
theorem cdf_boundary_values_witness :
    (Bivariate.mk 2 0 true).fitted = true ∧
      (-1 ≤ (2 : ℝ) ∧ (2 : ℝ) ≠ 0 ∧ 1 ≤ (2 : ℝ)) ∧
      Clayton.cumulative_distribution ⟨2, 0, true⟩ [(1, 1)] = Except.ok [1] ∧
      Gumbel.cumulative_distribution ⟨2, 0, true⟩ [(1 / 2, 0)] = Except.ok [0] ∧
      Independence.cumulative_distribution ⟨2, 0, true⟩ [(0, 1 / 2)] =
        Except.ok [0] := by
  have h := cdf_boundary_values ⟨2, 0, true⟩ rfl (1 / 2) (1 / 2)
  exact ⟨rfl, ⟨by norm_num, by norm_num, by norm_num⟩,
    (h.1 (by norm_num) (by norm_num)).1, (h.2.1 (by norm_num)).2.1, h.2.2.2.2⟩

/-- C5 (counterexample): the round-trip fails for the fitted Independence
family: percent_point(y, v) returns v (not a conditional inverse of y), and
partial_derivative returns the input matrix unchanged, so with y = 1/2 and
v = 1/4 the evaluation at the drawn pair yields the entry 1/4, not y. -/
theorem independence_roundtrip_fails :
    Independence.percent_point ⟨0, 0, true⟩ [1 / 2] [1 / 4] = Except.ok [1 / 4] ∧
      Independence.partial_derivative ⟨0, 0, true⟩ [(1 / 4, 1 / 4)] =
        Except.ok [(1 / 4, 1 / 4)] ∧
      ((1 : ℝ) / 4) ≠ 1 / 2 := by
  refine ⟨?_, rfl, by norm_num⟩
  simp [Independence.percent_point, Bivariate.check_fit, ok_bind]

/-- C5 (amended): for Clayton with fitted theta > 0 and y, v in (0, 1), the
round-trip holds exactly: if u is the value returned by percent_point(y, v),
then partial_derivative([(u, v)], 0) returns y. It fails for Independence
(whose percent_point returns v and whose partial derivative returns the
matrix unchanged) and for Gumbel at theta = 1 (whose partial derivative
returns v). -/
theorem clayton_roundtrip (θ y v : ℝ) (hθ : 0 < θ) (hy0 : 0 < y) (hy1 : y < 1)
    (hv0 : 0 < v) (hv1 : v < 1) :
    ∃ u : ℝ, Clayton.percent_point ⟨θ, 0, true⟩ [y] [v] = Except.ok [u] ∧
      Clayton.partial_derivative ⟨θ, 0, true⟩ [(u, v)] 0 = Except.ok [y] := by
  have hθ0 : θ ≠ 0 := hθ.ne'
  have hm0 : (-1 - θ : ℝ) ≠ 0 := by
    intro h
    linarith [h]
  have hbpos : 0 < v ^ θ := Real.rpow_pos_of_pos hv0 θ
  have hepos : θ / (-1 - θ) < 0 := div_neg_of_pos_of_neg hθ (by linarith)
  have ha1 : 1 < y ^ (θ / (-1 - θ)) :=
    (Real.one_lt_rpow_iff_of_pos hy0).mpr (Or.inr ⟨hy1, hepos⟩)
  have hapos : 0 < y ^ (θ / (-1 - θ)) := lt_trans one_pos ha1
  have hspos : 0 < (y ^ (θ / (-1 - θ)) + v ^ θ - 1) / v ^ θ :=
    div_pos (by linarith) hbpos
  refine ⟨((y ^ (θ / (-1 - θ)) + v ^ θ - 1) / v ^ θ) ^ (-1 / θ), ?_, ?_⟩
  · simp [Clayton.percent_point, Bivariate.check_fit, ok_bind, hθ.not_lt]
  · have hupow : ((((y ^ (θ / (-1 - θ)) + v ^ θ - 1) / v ^ θ) ^ (-1 / θ)) : ℝ) ^ (-θ)
        = (y ^ (θ / (-1 - θ)) + v ^ θ - 1) / v ^ θ := by
      rw [← Real.rpow_mul hspos.le, show (-1 / θ) * (-θ) = 1 by field_simp,
        Real.rpow_one]
    have hvpow : v ^ (-θ) = (v ^ θ)⁻¹ := Real.rpow_neg hv0.le θ
    have hB : v ^ (-θ) +
          ((((y ^ (θ / (-1 - θ)) + v ^ θ - 1) / v ^ θ) ^ (-1 / θ)) : ℝ) ^ (-θ) - 1
        = y ^ (θ / (-1 - θ)) / v ^ θ := by
      rw [hupow, hvpow]
      field_simp
    have hdiv : (y ^ (θ / (-1 - θ)) / v ^ θ) ^ ((-1 - θ) / θ) = y / v ^ (-1 - θ) := by
      rw [Real.div_rpow (Real.rpow_nonneg hy0.le _) hbpos.le,
        ← Real.rpow_mul hy0.le, ← Real.rpow_mul hv0.le,
        show θ / (-1 - θ) * ((-1 - θ) / θ) = 1 by field_simp,
        show θ * ((-1 - θ) / θ) = -1 - θ by field_simp,
        Real.rpow_one]
    have hAne : v ^ (-1 - θ) ≠ 0 := (Real.rpow_pos_of_pos hv0 _).ne'
    simp only [Clayton.partial_derivative, Bivariate.check_fit, ok_bind,
      split_matrix, if_true]
    rw [if_neg hθ0]
    simp only [List.map_cons, List.map_nil, List.zipWith_cons_cons,
      List.zipWith_nil_right]
    rw [hB, hdiv, show (-θ - 1 : ℝ) = -1 - θ by ring,
      show v ^ (-1 - θ) * (y / v ^ (-1 - θ)) - 0 = y by field_simp]
    rfl

/-- C5 (witness): the Clayton round-trip instantiated at theta = 1,
y = 1/2, v = 1/2. -/
theorem clayton_roundtrip_witness :
    (0 : ℝ) < 1 ∧ (0 : ℝ) < 1 / 2 ∧ (1 / 2 : ℝ) < 1 ∧
      ∃ u : ℝ, Clayton.percent_point ⟨1, 0, true⟩ [1 / 2] [1 / 2] = Except.ok [u] ∧
        Clayton.partial_derivative ⟨1, 0, true⟩ [(u, 1 / 2)] 0 = Except.ok [1 / 2] :=
  ⟨by norm_num, by norm_num, by norm_num,
    clayton_roundtrip 1 (1 / 2) (1 / 2) (by norm_num) (by norm_num) (by norm_num)
      (by norm_num) (by norm_num)⟩

/-- C9: for every family, on a fitted instance the CDF is symmetric in its
two inputs: swapping the two columns of the input matrix X yields the same
output vector. -/
theorem cdf_symmetric (c : Bivariate) (hf : c.fitted = true) (X : List (ℝ × ℝ)) :
    Clayton.cumulative_distribution c (X.map Prod.swap) =
        Clayton.cumulative_distribution c X ∧
      Gumbel.cumulative_distribution c (X.map Prod.swap) =
        Gumbel.cumulative_distribution c X ∧
      Independence.cumulative_distribution c (X.map Prod.swap) =
        Independence.cumulative_distribution c X := by
  have h1 : (∀ p ∈ X.map Prod.swap, p.2 = 0) ↔ (∀ q ∈ X, q.1 = 0) := by
    constructor
    · intro h q hq
      simpa using h q.swap (List.mem_map.mpr ⟨q, hq, rfl⟩)
    · intro h p hp
      rcases List.mem_map.mp hp with ⟨q, hq, rfl⟩
      simpa using h q hq
  have h2 : (∀ p ∈ X.map Prod.swap, p.1 = 0) ↔ (∀ q ∈ X, q.2 = 0) := by
    constructor
    · intro h q hq
      simpa using h q.swap (List.mem_map.mpr ⟨q, hq, rfl⟩)
    · intro h p hp
      rcases List.mem_map.mp hp with ⟨q, hq, rfl⟩
      simpa using h q hq
  refine ⟨?_, ?_, ?_⟩
  · rw [clayton_cdf_eq c hf, clayton_cdf_eq c hf]
    refine if_congr (by rw [h1, h2]; exact or_comm) (by simp) ?_
    rw [List.map_map]
    refine congrArg Except.ok (List.map_congr_left fun p _ => ?_)
    simp only [Function.comp_apply, Prod.fst_swap, Prod.snd_swap]
    by_cases hp : 0 < p.1 ∧ 0 < p.2
    · rw [if_pos ⟨hp.2, hp.1⟩, if_pos hp,
        add_comm (p.2 ^ (-c.theta)) (p.1 ^ (-c.theta))]
    · rw [if_neg (fun hc => hp ⟨hc.2, hc.1⟩), if_neg hp]
  · rw [gumbel_cdf_eq c hf, gumbel_cdf_eq c hf]
    refine if_congr Iff.rfl ?_ ?_
    · rw [List.map_map]
      refine congrArg Except.ok (List.map_congr_left fun p _ => ?_)
      simp only [Function.comp_apply, Prod.fst_swap, Prod.snd_swap]
      exact mul_comm p.2 p.1
    · rw [List.map_map]
      refine congrArg Except.ok (List.map_congr_left fun p _ => ?_)
      simp only [Function.comp_apply, Prod.fst_swap, Prod.snd_swap]
      rw [add_comm (nlog p.2 ^ c.theta) (nlog p.1 ^ c.theta)]
  · simp only [Independence.cumulative_distribution, split_matrix, zipWith_split]
    rw [List.map_map]
    refine congrArg Except.ok (List.map_congr_left fun p _ => ?_)
    simp only [Function.comp_apply, Prod.fst_swap, Prod.snd_swap]
    exact mul_comm p.2 p.1

/-- C9 (witness): the symmetry instantiated on a fitted state with theta = 2
and a concrete two-row matrix. -/
theorem cdf_symmetric_witness :
    (Bivariate.mk 2 0 true).fitted = true ∧
      Clayton.cumulative_distribution ⟨2, 0, true⟩
          ([(1 / 3, 1 / 2), (1 / 4, 0)].map Prod.swap) =
        Clayton.cumulative_distribution ⟨2, 0, true⟩ [(1 / 3, 1 / 2), (1 / 4, 0)] :=
  ⟨rfl, (cdf_symmetric ⟨2, 0, true⟩ rfl [(1 / 3, 1 / 2), (1 / 4, 0)]).1⟩

/-- C8: `Independence.fit` succeeds on every input and leaves every field of
the instance state (theta, tau, fitted) unchanged. -/
theorem independence_fit_noop (c : Bivariate) (X : List (ℝ × ℝ)) :
    ∃ cf : Bivariate, Independence.fit c X = Except.ok cf ∧
      cf.theta = c.theta ∧ cf.tau = c.tau ∧ cf.fitted = c.fitted :=
  ⟨c, rfl, rfl, rfl, rfl⟩

end Copulas
